import Mathlib

/-!
Verification of the AnomalidetektionApp detection-and-aggregation pipeline.

The backend core (algorithm framework, strategy engine, analysis-run
orchestrator) is described by the architecture documents of the repository
but its Python modules are absent from the source tree (only scaffolding,
TODO lists and the database schema exist).  Those parts are therefore
modelled from the specification, as flagged on each definition.  The
frontend upload component is translated directly from
frontend/components/upload/file-upload-zone.tsx.

Scores, amounts and weights are modelled as rationals: the specification
fixes the exact arithmetic of the combination policies, and rational
arithmetic realises it exactly.
-/

namespace Anomalidetektion

/-! Core data model of the detection pipeline. -/

/-- Modelled from the spec: missing backend module app/models/transaction.py.
A transformed transaction: identifier, account identifier, day of week
(0 = Monday .. 5 = Saturday, 6 = Sunday, a derived field appended by the
Data Transformer) and a normalised numeric amount. -/
structure Transaction where
  txId : Nat
  accountId : Nat
  weekday : Fin 7
  amount : ℚ
  deriving DecidableEq, Repr

/-- Arithmetic mean of a list of rationals (division by a zero length yields 0 in ℚ). -/
def mean (xs : List ℚ) : ℚ := xs.sum / (xs.length : ℚ)

/-- Population variance of a list of rationals. -/
def variance (xs : List ℚ) : ℚ :=
  (xs.map (fun x => (x - mean xs) ^ 2)).sum / (xs.length : ℚ)

/-- Modelled from the spec: missing backend module
app/algorithms/statistical/zscore.py.  Configuration of the z-score
algorithm: minimum group sample count and the saturation threshold at which
the deviation score clips to 1. -/
structure ZScoreConfig where
  minSamples : Nat
  saturation : ℚ
  deriving DecidableEq, Repr

/-- The amounts of the transactions sharing the group key (account identifier) of t. -/
def groupAmounts (batch : List Transaction) (t : Transaction) : List ℚ :=
  (batch.filter (fun u => u.accountId == t.accountId)).map Transaction.amount

/-- Modelled from the spec: missing backend module
app/algorithms/statistical/zscore.py.  Score of one transaction: groups with
fewer than minSamples members score 0; zero-variance groups score 0 (the
guarded degenerate case); otherwise a monotone transform of the deviation,
clipped into [0,1] at the saturation threshold. -/
def zscoreScoreTx (cfg : ZScoreConfig) (batch : List Transaction) (t : Transaction) : ℚ :=
  if (groupAmounts batch t).length < cfg.minSamples then 0
  else if variance (groupAmounts batch t) = 0 then 0
  else min 1 ((t.amount - mean (groupAmounts batch t)) ^ 2
    / (variance (groupAmounts batch t) * cfg.saturation ^ 2))

/-- Modelled from the spec: missing backend module
app/algorithms/statistical/zscore.py.  The detect entry point of the z-score
algorithm: one (transaction identifier, score) row per transaction. -/
def zscoreDetect (batch : List Transaction) (cfg : ZScoreConfig) : List (Nat × ℚ) :=
  batch.map (fun t => (t.txId, zscoreScoreTx cfg batch t))

/-- Modelled from the spec: missing backend module
app/algorithms/rule_based/weekend_threshold.py.  Configuration of the
weekend-threshold rule: the flagged weekdays and the amount threshold. -/
structure WeekendThresholdConfig where
  weekdays : List (Fin 7)
  amountThreshold : ℚ
  deriving DecidableEq, Repr

/-- A rule flag row: transaction identifier and triggered state
(rule_flags table of the database schema). -/
structure RuleFlag where
  txId : Nat
  triggered : Bool
  deriving DecidableEq, Repr

/-- Modelled from the spec: missing backend module
app/algorithms/rule_based/weekend_threshold.py.  The rule triggers exactly
when the weekday is in the configured set and the amount exceeds the
threshold. -/
def weekendThresholdTriggered (cfg : WeekendThresholdConfig) (t : Transaction) : Bool :=
  cfg.weekdays.contains t.weekday && decide (cfg.amountThreshold < t.amount)

/-- Derived score of the weekend-threshold rule: 1 when triggered, 0 otherwise. -/
def weekendThresholdScore (cfg : WeekendThresholdConfig) (t : Transaction) : ℚ :=
  if weekendThresholdTriggered cfg t then 1 else 0

/-- Modelled from the spec: missing backend module
app/algorithms/rule_based/weekend_threshold.py.  The detect entry point of
the weekend-threshold rule: one (flag, derived score) row per transaction. -/
def weekendThresholdDetect (batch : List Transaction) (cfg : WeekendThresholdConfig) :
    List (RuleFlag × ℚ) :=
  batch.map (fun t => (⟨t.txId, weekendThresholdTriggered cfg t⟩, weekendThresholdScore cfg t))

/-! Strategy engine: configuration, combination policies and aggregation. -/

/-- Algorithm category, one of the three capability classes. -/
inductive AlgCategory
  | statistical
  | ruleBased
  | mlBased
  deriving DecidableEq, Repr

/-- Combination policy of a strategy, a closed set. -/
inductive CombinationPolicy
  | max
  | weightedAverage
  | vote
  deriving DecidableEq, Repr

/-- Parameters of one configured algorithm, one shape per built-in algorithm. -/
inductive AlgoParams
  | zscoreParams (minSamples : Nat) (saturation : ℚ)
  | weekendParams (weekdays : List (Fin 7)) (amountThreshold : ℚ)
  deriving DecidableEq, Repr

/-- Modelled from the spec: missing backend module app/models/strategy.py.
One entry of the ordered algorithm list of a strategy: algorithm identifier,
parameters, weight and the trigger threshold used by the vote policy. -/
structure AlgoConfigEntry where
  algId : String
  params : AlgoParams
  weight : ℚ
  voteThreshold : ℚ
  deriving DecidableEq, Repr

/-- Modelled from the spec: missing backend module app/models/strategy.py.
A strategy: name, ordered algorithm list and combination policy. -/
structure Strategy where
  sname : String
  algorithms : List AlgoConfigEntry
  policy : CombinationPolicy
  deriving DecidableEq, Repr

/-- Per-transaction outcome of one configured algorithm as consumed by the
combination step: weight, score, category, triggered flag (meaningful for
rule-based algorithms) and the vote trigger threshold. -/
structure AlgoOutcome where
  weight : ℚ
  score : ℚ
  category : AlgCategory
  triggered : Bool
  voteThreshold : ℚ
  deriving DecidableEq, Repr

/-- Modelled from the spec: missing backend module app/algorithms (registry).
The process-wide registry of built-in algorithm identifiers. -/
def registeredAlgorithms : List String := ["zscore", "weekend_threshold"]

/-- Modelled from the spec: missing backend module
app/services/strategy_manager.py.  Resolve one configured entry and run it
against the batch for one transaction. -/
def runAlgorithm (entry : AlgoConfigEntry) (batch : List Transaction) (t : Transaction) :
    AlgoOutcome :=
  match entry.params with
  | .zscoreParams m s =>
      { weight := entry.weight, score := zscoreScoreTx ⟨m, s⟩ batch t,
        category := .statistical, triggered := false, voteThreshold := entry.voteThreshold }
  | .weekendParams ds th =>
      { weight := entry.weight, score := weekendThresholdScore ⟨ds, th⟩ t,
        category := .ruleBased, triggered := weekendThresholdTriggered ⟨ds, th⟩ t,
        voteThreshold := entry.voteThreshold }

/-- True when some rule-based algorithm produced a triggered flag: the hard
override of the combination step. -/
def ruleOverride (os : List AlgoOutcome) : Bool :=
  os.any (fun o => decide (o.category = AlgCategory.ruleBased) && o.triggered)

/-- The formula of the specification for the weighted-average policy:
aggregate equals the sum of weight times score divided by the sum of weights. -/
def specWeightedAverage (os : List AlgoOutcome) : ℚ :=
  (os.map (fun o => o.weight * o.score)).sum / (os.map AlgoOutcome.weight).sum

/-- Modelled from the spec: missing backend module
app/services/strategy_manager.py.  The three combination policies. -/
def policyCombine : CombinationPolicy → List AlgoOutcome → ℚ
  | .max, os => (os.map (fun o => o.weight * o.score)).foldr max 0
  | .weightedAverage, os =>
      (os.map (fun o => o.weight * o.score)).sum / (os.map AlgoOutcome.weight).sum
  | .vote, os =>
      ((os.filter (fun o => decide (o.voteThreshold ≤ o.score))).length : ℚ) / (os.length : ℚ)

/-- Modelled from the spec: missing backend module
app/services/strategy_manager.py.  Aggregate score of one transaction: a
triggered rule-based flag forces 1, otherwise the policy combination. -/
def aggregateScore (p : CombinationPolicy) (os : List AlgoOutcome) : ℚ :=
  if ruleOverride os then 1 else policyCombine p os

/-- The outcomes of every configured algorithm of a strategy for one transaction. -/
def strategyOutcomes (strat : Strategy) (batch : List Transaction) (t : Transaction) :
    List AlgoOutcome :=
  strat.algorithms.map (fun e => runAlgorithm e batch t)

/-- The aggregate score the strategy engine assigns to one transaction of a batch. -/
def engineAggregate (strat : Strategy) (batch : List Transaction) (t : Transaction) : ℚ :=
  aggregateScore strat.policy (strategyOutcomes strat batch t)

/-! Strategy validation. -/

/-- One validation issue, aggregated into a StrategyValidationError. -/
inductive ValidationIssue
  | emptyAlgorithmList
  | unknownAlgorithm (algId : String)
  | configurationError (algId : String) (field : String)
  | allWeightsZero
  deriving DecidableEq, Repr

/-- Modelled from the spec: missing backend module
app/services/strategy_manager.py.  Validation of one configured entry: an
unregistered identifier yields an UnknownAlgorithmError naming it; a
registered algorithm checks its own parameter shape and ranges. -/
def validateEntry (e : AlgoConfigEntry) : List ValidationIssue :=
  if registeredAlgorithms.contains e.algId then
    match e.algId, e.params with
    | "zscore", .zscoreParams _ s =>
        if s ≤ 0 then [.configurationError e.algId "saturation"] else []
    | "weekend_threshold", .weekendParams ds _ =>
        if ds.isEmpty then [.configurationError e.algId "weekdays"] else []
    | _, _ => [.configurationError e.algId "params"]
  else [.unknownAlgorithm e.algId]

/-- Issues of every entry of the algorithm list, in order. -/
def entryIssues : List AlgoConfigEntry → List ValidationIssue
  | [] => []
  | e :: rest => validateEntry e ++ entryIssues rest

/-- Modelled from the spec: missing backend module
app/services/strategy_manager.py.  Validation of a strategy, listing every
offending configuration: empty algorithm list, per-entry issues, and all
weights zero under the weighted policy.  The strategy is valid exactly when
the issue list is empty. -/
def validateStrategy (strat : Strategy) : List ValidationIssue :=
  (if strat.algorithms.isEmpty then [ValidationIssue.emptyAlgorithmList] else [])
    ++ entryIssues strat.algorithms
    ++ (if strat.policy = CombinationPolicy.weightedAverage
          ∧ strat.algorithms.all (fun e => decide (e.weight = 0))
        then [ValidationIssue.allWeightsZero] else [])

/-! Analysis-run orchestrator: state machine and persistence contract. -/

/-- State of an analysis run. -/
inductive RunState
  | pending
  | running
  | cancelling
  | completed
  | failed
  | cancelled
  deriving DecidableEq, Repr

/-- The three terminal states. -/
def RunState.isTerminal : RunState → Bool
  | .completed => true
  | .failed => true
  | .cancelled => true
  | _ => false

/-- One persisted anomaly-score row of a run. -/
structure ScoreRow where
  txId : Nat
  algId : String
  score : ℚ
  deriving DecidableEq, Repr

/-- Orchestrator state of one run: run state, in-memory partial results
(the visible progress) and the durably persisted score rows of the run. -/
structure OrchState where
  runState : RunState
  computed : List ScoreRow
  persisted : List ScoreRow
  deriving DecidableEq, Repr

/-- Events driving the orchestrator state machine. -/
inductive OrchEvent
  | start
  | scoreTx (row : ScoreRow)
  | complete
  | failPermanent
  | cancelRequest
  | cleanupDone
  | retryExhausted
  deriving DecidableEq, Repr

/-- Initial orchestrator state of a freshly created run. -/
def initOrchState : OrchState := ⟨RunState.pending, [], []⟩

/-- Modelled from the spec: missing backend module
app/services/analysis_engine.py.  One step of the orchestrator state
machine.  A run starts only after the bound strategy passes validation;
scoring work happens only in the running state; all computed rows become
durable exactly at the transition to completed; failure, cancellation and
retry exhaustion discard partial results; every unspecified combination,
including every event on a terminal state, leaves the state unchanged. -/
def orchStep (strat : Strategy) (s : OrchState) (e : OrchEvent) : OrchState :=
  match s.runState, e with
  | .pending, .start =>
      if validateStrategy strat = [] then { s with runState := RunState.running }
      else { s with runState := RunState.failed }
  | .pending, .retryExhausted => { s with runState := RunState.failed }
  | .running, .scoreTx row => { s with computed := s.computed ++ [row] }
  | .running, .complete =>
      { runState := RunState.completed, computed := s.computed, persisted := s.computed }
  | .running, .failPermanent => { s with runState := RunState.failed, computed := [] }
  | .running, .retryExhausted => { s with runState := RunState.failed, computed := [] }
  | .running, .cancelRequest => { s with runState := RunState.cancelling }
  | .cancelling, .cleanupDone => { s with runState := RunState.cancelled, computed := [] }
  | .cancelling, .retryExhausted => { s with runState := RunState.failed, computed := [] }
  | _, _ => s

/-- The orchestrator state after a sequence of events, from the initial state. -/
def orchRun (strat : Strategy) (events : List OrchEvent) : OrchState :=
  events.foldl (orchStep strat) initOrchState

/-- Modelled from the spec: missing backend module app/api/analysis.py.
Creating a run validates the strategy synchronously and fails with the
aggregated issue list before any run exists. -/
def createRun (strat : Strategy) : Except (List ValidationIssue) OrchState :=
  if validateStrategy strat = [] then Except.ok initOrchState
  else Except.error (validateStrategy strat)

end Anomalidetektion

namespace Anomalidetektion.Frontend

/-! Frontend upload component, translated from
frontend/components/upload/file-upload-zone.tsx. -/

/-- A browser file as seen by the drop zone: name, MIME type and byte size. -/
structure FileInfo where
  fname : String
  mime : String
  size : Nat
  deriving DecidableEq, Repr

/-- The accept configuration of useDropzone (lines 64 to 69 of the component). -/
def acceptedMimeTypes : List String :=
  ["text/csv", "application/vnd.openxmlformats-officedocument.spreadsheetml.sheet",
   "application/vnd.ms-excel", "application/json"]

/-- The maxSize configuration of useDropzone (line 70 of the component). -/
def maxFileSize : Nat := 100 * 1024 * 1024

/-- Acceptance test of the drop zone under the configuration the component
passes to useDropzone: the MIME type must be one of the four configured types
and the size must be within maxSize. -/
def dropzoneAccepts (f : FileInfo) : Bool :=
  decide (f.mime ∈ acceptedMimeTypes) && decide (f.size ≤ maxFileSize)

/-- Status of an entry of the uploaded-files list. -/
inductive UploadStatus
  | uploading
  | success
  | error
  deriving DecidableEq, Repr

/-- One entry of the uploaded-files list of the component. -/
structure UploadedFile where
  file : FileInfo
  status : UploadStatus
  progress : Nat
  id : String
  deriving DecidableEq, Repr

/-- A freshly dropped file enters the list uploading with progress 0
(lines 24 to 29 of the component). -/
def mkUploadedFile (f : FileInfo) (newId : String) : UploadedFile :=
  ⟨f, UploadStatus.uploading, 0, newId⟩

/-- The onDrop handler: the drop zone hands over only the accepted files,
which are appended to the previous list (lines 23 to 38 of the component).
Each dropped file is paired with the random identifier generated for it. -/
def onDrop (prev : List UploadedFile) (dropped : List (FileInfo × String)) :
    List UploadedFile :=
  prev ++ (dropped.filter (fun p => dropzoneAccepts p.1)).map (fun p => mkUploadedFile p.1 p.2)

/-- One tick of simulateUpload on one entry (lines 42 to 53 of the component):
a non-matching identifier leaves the entry unchanged; at progress at least
100 the entry becomes success with progress 100; otherwise progress grows by
10. -/
def tickFile (fileId : String) (f : UploadedFile) : UploadedFile :=
  if f.id = fileId then
    if 100 ≤ f.progress then { f with status := UploadStatus.success, progress := 100 }
    else { f with progress := f.progress + 10 }
  else f

/-- One tick of simulateUpload on the whole uploaded-files list. -/
def simulateUploadTick (fileId : String) (files : List UploadedFile) : List UploadedFile :=
  files.map (tickFile fileId)

end Anomalidetektion.Frontend
namespace Anomalidetektion

/-! Concrete inputs used by counterexamples and witnesses. -/

/-- Z-score configuration: minimum 2 samples, saturation threshold 3. -/
def exZCfg : ZScoreConfig := ⟨2, 3⟩

/-- A single-group batch of four transactions of equal amount 10. -/
def exBatch4 : List Transaction :=
  [⟨1, 1, 0, 10⟩, ⟨2, 1, 1, 10⟩, ⟨3, 1, 2, 10⟩, ⟨4, 1, 3, 10⟩]

/-- The first transaction of the equal-amount batch. -/
def exT1 : Transaction := ⟨1, 1, 0, 10⟩

/-- Weekend-threshold configuration: Saturday and Sunday, amount threshold 1000. -/
def exWeekendCfg : WeekendThresholdConfig := ⟨[5, 6], 1000⟩

/-- A Saturday transaction of amount 1500. -/
def exSat1500 : Transaction := ⟨1, 1, 5, 1500⟩

/-- A Saturday transaction of amount 500. -/
def exSat500 : Transaction := ⟨2, 1, 5, 500⟩

/-- A Tuesday transaction of amount 5000. -/
def exTue5000 : Transaction := ⟨3, 1, 1, 5000⟩

/-- A weighted-average strategy pairing the z-score algorithm with the
weekend-threshold rule, both with weight 1. -/
def exStratWA : Strategy :=
  ⟨"balanced", [⟨"zscore", AlgoParams.zscoreParams 2 3, 1, 1/2⟩,
    ⟨"weekend_threshold", AlgoParams.weekendParams [5, 6] 1000, 1, 1/2⟩],
   CombinationPolicy.weightedAverage⟩

/-- A batch holding only the Saturday transaction of amount 1500. -/
def exBatch1 : List Transaction := [exSat1500]

/-- A Tuesday transaction of amount 500, triggering no rule. -/
def exTQuiet : Transaction := ⟨1, 1, 1, 500⟩

/-- A batch holding only the quiet Tuesday transaction. -/
def exBatchQuiet : List Transaction := [exTQuiet]

/-- A strategy naming an unregistered algorithm identifier. -/
def exBadStrat : Strategy :=
  ⟨"bad", [⟨"isolation_forest", AlgoParams.zscoreParams 2 3, 1, 1/2⟩],
   CombinationPolicy.max⟩

/-- A score row used by orchestrator witnesses. -/
def exRow : ScoreRow := ⟨1, "zscore", 1/2⟩

/-- A weighted-average strategy with weights -1 and 2 (not all zero) over two
z-score configurations and no rule-based algorithm at all. -/
def exStratNeg : Strategy :=
  ⟨"neg", [⟨"zscore", AlgoParams.zscoreParams 2 1, -1, 1/2⟩,
    ⟨"zscore", AlgoParams.zscoreParams 3 1, 2, 1/2⟩],
   CombinationPolicy.weightedAverage⟩

/-- The outlier transaction of the two-element batch below. -/
def exTNeg : Transaction := ⟨2, 1, 1, 10⟩

/-- A one-group batch of amounts 0 and 10: under saturation 1 the first
z-score configuration scores the amount-10 transaction exactly 1, while the
second one scores it 0 (group size 2 below its minimum of 3 samples). -/
def exBatchNeg : List Transaction := [⟨1, 1, 0, 0⟩, exTNeg]

end Anomalidetektion

namespace Anomalidetektion.Frontend

/-- A file of a type the drop zone does not accept. -/
def exBadFile : FileInfo := ⟨"notes.txt", "text/plain", 10⟩

/-- A CSV file the drop zone accepts. -/
def exGoodFile : FileInfo := ⟨"a.csv", "text/csv", 1024⟩

/-- An uploading entry at progress 50. -/
def exUp50 : UploadedFile := ⟨exGoodFile, UploadStatus.uploading, 50, "id1"⟩

/-- An uploading entry at progress 100, about to flip to success. -/
def exUp100 : UploadedFile := ⟨⟨"b.csv", "text/csv", 20⟩, UploadStatus.uploading, 100, "id2"⟩

end Anomalidetektion.Frontend

namespace Anomalidetektion

/-! General lemmas about the algorithms and the engine. -/

lemma variance_nonneg (xs : List ℚ) : 0 ≤ variance xs := by
  unfold variance
  apply div_nonneg
  · apply List.sum_nonneg
    intro x hx
    obtain ⟨y, _, rfl⟩ := List.mem_map.mp hx
    positivity
  · positivity

lemma zscoreScoreTx_nonneg (cfg : ZScoreConfig) (batch : List Transaction) (t : Transaction) :
    0 ≤ zscoreScoreTx cfg batch t := by
  unfold zscoreScoreTx
  split
  · exact le_refl 0
  · split
    · exact le_refl 0
    · refine le_min (by norm_num) ?_
      apply div_nonneg (by positivity)
      have := variance_nonneg (groupAmounts batch t)
      positivity

lemma zscoreScoreTx_le_one (cfg : ZScoreConfig) (batch : List Transaction) (t : Transaction) :
    zscoreScoreTx cfg batch t ≤ 1 := by
  unfold zscoreScoreTx
  split
  · norm_num
  · split
    · norm_num
    · exact min_le_left _ _

lemma weekendThresholdScore_nonneg (cfg : WeekendThresholdConfig) (t : Transaction) :
    0 ≤ weekendThresholdScore cfg t := by
  unfold weekendThresholdScore
  split <;> norm_num

lemma weekendThresholdScore_le_one (cfg : WeekendThresholdConfig) (t : Transaction) :
    weekendThresholdScore cfg t ≤ 1 := by
  unfold weekendThresholdScore
  split <;> norm_num

lemma runAlgorithm_weight (e : AlgoConfigEntry) (batch : List Transaction) (t : Transaction) :
    (runAlgorithm e batch t).weight = e.weight := by
  unfold runAlgorithm
  split <;> rfl

lemma runAlgorithm_score_nonneg (e : AlgoConfigEntry) (batch : List Transaction)
    (t : Transaction) : 0 ≤ (runAlgorithm e batch t).score := by
  unfold runAlgorithm
  split
  · exact zscoreScoreTx_nonneg _ _ _
  · exact weekendThresholdScore_nonneg _ _

lemma runAlgorithm_score_le_one (e : AlgoConfigEntry) (batch : List Transaction)
    (t : Transaction) : (runAlgorithm e batch t).score ≤ 1 := by
  unfold runAlgorithm
  split
  · exact zscoreScoreTx_le_one _ _ _
  · exact weekendThresholdScore_le_one _ _

lemma specWeightedAverage_bounds (os : List AlgoOutcome)
    (hw : ∀ o ∈ os, 0 ≤ o.weight)
    (hs0 : ∀ o ∈ os, 0 ≤ o.score)
    (hs1 : ∀ o ∈ os, o.score ≤ 1)
    (hpos : 0 < (os.map AlgoOutcome.weight).sum) :
    0 ≤ specWeightedAverage os ∧ specWeightedAverage os ≤ 1 := by
  unfold specWeightedAverage
  constructor
  · apply div_nonneg _ hpos.le
    apply List.sum_nonneg
    intro x hx
    obtain ⟨o, ho, rfl⟩ := List.mem_map.mp hx
    exact mul_nonneg (hw o ho) (hs0 o ho)
  · rw [div_le_one hpos]
    exact List.sum_le_sum (fun o ho => mul_le_of_le_one_right (hw o ho) (hs1 o ho))

/-! General lemmas about validation and the orchestrator. -/

lemma validateEntry_unregistered (e : AlgoConfigEntry)
    (h : registeredAlgorithms.contains e.algId = false) :
    validateEntry e = [ValidationIssue.unknownAlgorithm e.algId] := by
  have h2 : e.algId ∉ registeredAlgorithms := by simpa using h
  simp [validateEntry, h2]

lemma mem_entryIssues_of_mem {entries : List AlgoConfigEntry} {e : AlgoConfigEntry}
    {i : ValidationIssue} (he : e ∈ entries) (hi : i ∈ validateEntry e) :
    i ∈ entryIssues entries := by
  induction entries with
  | nil => cases he
  | cons hd tl ih =>
    rcases List.mem_cons.mp he with rfl | htl
    · exact List.mem_append_left _ hi
    · exact List.mem_append_right _ (ih htl)

lemma mem_validateStrategy_of_entryIssue {strat : Strategy} {i : ValidationIssue}
    (hi : i ∈ entryIssues strat.algorithms) : i ∈ validateStrategy strat := by
  unfold validateStrategy
  exact List.mem_append_left _ (List.mem_append_right _ hi)

lemma orchStep_invalid_preserves {strat : Strategy} (hv : validateStrategy strat ≠ [])
    (s : OrchState) (e : OrchEvent)
    (hs : s.runState = RunState.pending ∨ s.runState = RunState.failed) :
    (orchStep strat s e).runState = RunState.pending ∨
    (orchStep strat s e).runState = RunState.failed := by
  obtain ⟨rs, c, p⟩ := s
  simp only at hs
  rcases hs with rfl | rfl <;> cases e <;> simp [orchStep, hv]

lemma orchRun_invalid_not_running {strat : Strategy} (hv : validateStrategy strat ≠ [])
    (events : List OrchEvent) :
    (orchRun strat events).runState = RunState.pending ∨
    (orchRun strat events).runState = RunState.failed := by
  unfold orchRun
  have main : ∀ (es : List OrchEvent) (s : OrchState),
      s.runState = RunState.pending ∨ s.runState = RunState.failed →
      (es.foldl (orchStep strat) s).runState = RunState.pending ∨
      (es.foldl (orchStep strat) s).runState = RunState.failed := by
    intro es
    induction es with
    | nil => intro s hs; exact hs
    | cons e tl ih =>
      intro s hs
      exact ih _ (orchStep_invalid_preserves hv s e hs)
  exact main events initOrchState (Or.inl rfl)

lemma orchStep_persisted_inv (strat : Strategy) (s : OrchState) (e : OrchEvent)
    (h : s.persisted = [] ∨ s.runState = RunState.completed) :
    (orchStep strat s e).persisted = [] ∨
    (orchStep strat s e).runState = RunState.completed := by
  obtain ⟨rs, c, p⟩ := s
  simp only at h
  cases rs <;> cases e <;> simp [orchStep] <;>
    first
      | tauto
      | (split <;> simp <;> tauto)

lemma orchRun_persisted_inv (strat : Strategy) (events : List OrchEvent) :
    (orchRun strat events).persisted = [] ∨
    (orchRun strat events).runState = RunState.completed := by
  unfold orchRun
  have main : ∀ (es : List OrchEvent) (s : OrchState),
      s.persisted = [] ∨ s.runState = RunState.completed →
      (es.foldl (orchStep strat) s).persisted = [] ∨
      (es.foldl (orchStep strat) s).runState = RunState.completed := by
    intro es
    induction es with
    | nil => intro s hs; exact hs
    | cons e tl ih => intro s hs; exact ih _ (orchStep_persisted_inv strat s e hs)
  exact main events initOrchState (Or.inl rfl)

/-! Claim C1. -/

/-- Claim C1, as frozen, is false on this model in two independent ways.
First, the hard rule override of the combination step takes precedence over
the weighted-average formula: at the concrete weighted-average strategy
combining the z-score algorithm with the weekend-threshold rule, both of
weight 1, on a single Saturday transaction of amount 1500 the rule
triggers, the weight sum is 2, the engine aggregate is 1, yet the formula
of the claim yields 1/2.  Second, even with no rule-based algorithm at all,
weights that are not all zero do not keep the aggregate in [0, 1]: at the
concrete weighted-average strategy with weights -1 and 2 over two z-score
configurations scoring 1 and 0, the weight sum is 1, no override applies,
and the engine aggregate is -1, below 0. -/
theorem weightedAverage_claim_counterexample :
    exStratWA.policy = CombinationPolicy.weightedAverage ∧
    ((strategyOutcomes exStratWA exBatch1 exSat1500).map AlgoOutcome.weight).sum = 2 ∧
    engineAggregate exStratWA exBatch1 exSat1500 = 1 ∧
    specWeightedAverage (strategyOutcomes exStratWA exBatch1 exSat1500) = 1 / 2 ∧
    engineAggregate exStratWA exBatch1 exSat1500
      ≠ specWeightedAverage (strategyOutcomes exStratWA exBatch1 exSat1500) ∧
    exStratNeg.policy = CombinationPolicy.weightedAverage ∧
    ruleOverride (strategyOutcomes exStratNeg exBatchNeg exTNeg) = false ∧
    ((strategyOutcomes exStratNeg exBatchNeg exTNeg).map AlgoOutcome.weight).sum = 1 ∧
    (strategyOutcomes exStratNeg exBatchNeg exTNeg).map AlgoOutcome.score = [1, 0] ∧
    engineAggregate exStratNeg exBatchNeg exTNeg = -1 ∧
    ¬ 0 ≤ engineAggregate exStratNeg exBatchNeg exTNeg := by
  have h2 : engineAggregate exStratWA exBatch1 exSat1500 = 1 := by
    norm_num [engineAggregate, aggregateScore, ruleOverride, strategyOutcomes, runAlgorithm,
      exStratWA, exBatch1, exSat1500, weekendThresholdTriggered]
  have h3 : specWeightedAverage (strategyOutcomes exStratWA exBatch1 exSat1500) = 1 / 2 := by
    norm_num [specWeightedAverage, strategyOutcomes, runAlgorithm, exStratWA, exBatch1,
      exSat1500, weekendThresholdTriggered, weekendThresholdScore, zscoreScoreTx,
      groupAmounts, variance, mean]
  have hover : ruleOverride (strategyOutcomes exStratNeg exBatchNeg exTNeg) = false := by
    norm_num [ruleOverride, strategyOutcomes, runAlgorithm, exStratNeg, exBatchNeg, exTNeg]
  have hscores : (strategyOutcomes exStratNeg exBatchNeg exTNeg).map AlgoOutcome.score
      = [1, 0] := by
    norm_num [strategyOutcomes, runAlgorithm, exStratNeg, exBatchNeg, exTNeg,
      zscoreScoreTx, groupAmounts, variance, mean]
  have hneg : engineAggregate exStratNeg exBatchNeg exTNeg = -1 := by
    norm_num [engineAggregate, aggregateScore, policyCombine, ruleOverride, strategyOutcomes,
      runAlgorithm, exStratNeg, exBatchNeg, exTNeg, zscoreScoreTx, groupAmounts,
      variance, mean]
  refine ⟨rfl, ?_, h2, h3, ?_, rfl, hover, ?_, hscores, hneg, ?_⟩
  · norm_num [strategyOutcomes, runAlgorithm, exStratWA, exBatch1, exSat1500]
  · rw [h2, h3]; norm_num
  · norm_num [strategyOutcomes, runAlgorithm, exStratNeg, exBatchNeg, exTNeg]
  · rw [hneg]; norm_num

/-- Claim C1 (amended): for every batch, every weighted-average strategy
whose weights are nonnegative and not all zero, and every transaction for
which no configured rule-based algorithm produced a triggered flag, the
engine aggregate equals the sum of weight times score divided by the sum of
weights, and lies in [0, 1]. -/
theorem weightedAverage_aggregate_formula_and_bounds (strat : Strategy)
    (batch : List Transaction) (t : Transaction)
    (hpol : strat.policy = CombinationPolicy.weightedAverage)
    (hover : ruleOverride (strategyOutcomes strat batch t) = false)
    (hw : ∀ e ∈ strat.algorithms, 0 ≤ e.weight)
    (hpos : ∃ e ∈ strat.algorithms, 0 < e.weight) :
    engineAggregate strat batch t = specWeightedAverage (strategyOutcomes strat batch t) ∧
    0 ≤ engineAggregate strat batch t ∧ engineAggregate strat batch t ≤ 1 := by
  have hw2 : ∀ o ∈ strategyOutcomes strat batch t, 0 ≤ o.weight := by
    intro o ho
    obtain ⟨e, he, rfl⟩ := List.mem_map.mp ho
    rw [runAlgorithm_weight]
    exact hw e he
  have hsum : 0 < ((strategyOutcomes strat batch t).map AlgoOutcome.weight).sum := by
    obtain ⟨e, he, hepos⟩ := hpos
    have hnn : ∀ x ∈ (strategyOutcomes strat batch t).map AlgoOutcome.weight, 0 ≤ x := by
      intro x hx
      obtain ⟨o, ho, rfl⟩ := List.mem_map.mp hx
      exact hw2 o ho
    have hmem : (runAlgorithm e batch t).weight
        ∈ (strategyOutcomes strat batch t).map AlgoOutcome.weight :=
      List.mem_map_of_mem _ (List.mem_map_of_mem _ he)
    calc (0 : ℚ) < e.weight := hepos
      _ = (runAlgorithm e batch t).weight := (runAlgorithm_weight e batch t).symm
      _ ≤ _ := List.single_le_sum hnn _ hmem
  have heq : engineAggregate strat batch t
      = specWeightedAverage (strategyOutcomes strat batch t) := by
    rw [engineAggregate, hpol, aggregateScore, hover]
    simp [policyCombine, specWeightedAverage]
  have hbounds := specWeightedAverage_bounds (strategyOutcomes strat batch t) hw2
    (fun o ho => by
      obtain ⟨e, he, rfl⟩ := List.mem_map.mp ho
      exact runAlgorithm_score_nonneg e batch t)
    (fun o ho => by
      obtain ⟨e, he, rfl⟩ := List.mem_map.mp ho
      exact runAlgorithm_score_le_one e batch t) hsum
  refine ⟨heq, ?_, ?_⟩ <;> rw [heq]
  · exact hbounds.1
  · exact hbounds.2

/-- Witness for C1 (amended): on the quiet Tuesday batch the strategy
triggers no rule and the aggregate equals the weighted-average formula. -/
theorem weightedAverage_aggregate_witness :
    engineAggregate exStratWA exBatchQuiet exTQuiet =
      specWeightedAverage (strategyOutcomes exStratWA exBatchQuiet exTQuiet) ∧
    0 ≤ engineAggregate exStratWA exBatchQuiet exTQuiet ∧
    engineAggregate exStratWA exBatchQuiet exTQuiet ≤ 1 := by
  refine weightedAverage_aggregate_formula_and_bounds exStratWA exBatchQuiet exTQuiet rfl ?_ ?_ ?_
  · norm_num [ruleOverride, strategyOutcomes, runAlgorithm, exStratWA, exBatchQuiet, exTQuiet,
      weekendThresholdTriggered]
  · intro e he
    simp [exStratWA] at he
    rcases he with rfl | rfl <;> norm_num
  · exact ⟨⟨"zscore", AlgoParams.zscoreParams 2 3, 1, 1 / 2⟩, by simp [exStratWA], by norm_num⟩

/-! Claim C2. -/

/-- Claim C2: for every combination policy, every batch and every
transaction, a triggered rule-based flag among the strategy outcomes forces
the engine aggregate score to exactly 1. -/
theorem triggered_rule_forces_aggregate_one (strat : Strategy) (batch : List Transaction)
    (t : Transaction) (h : ruleOverride (strategyOutcomes strat batch t) = true) :
    engineAggregate strat batch t = 1 := by
  simp [engineAggregate, aggregateScore, h]

/-- Witness for C2: the triggered weekend rule forces the aggregate of the
weighted-average strategy to 1. -/
theorem triggered_rule_forces_aggregate_one_witness :
    ruleOverride (strategyOutcomes exStratWA exBatch1 exSat1500) = true ∧
    engineAggregate exStratWA exBatch1 exSat1500 = 1 := by
  have h : ruleOverride (strategyOutcomes exStratWA exBatch1 exSat1500) = true := by
    norm_num [ruleOverride, strategyOutcomes, runAlgorithm, exStratWA, exBatch1, exSat1500,
      weekendThresholdTriggered]
  exact ⟨h, triggered_rule_forces_aggregate_one exStratWA exBatch1 exSat1500 h⟩

/-! Claim C3. -/

/-- Claim C3: detect is deterministic for both built-in algorithms, a
two-run equality: identical batches and identical configurations give
identical per-transaction score outputs. -/
theorem detect_deterministic (b₁ b₂ : List Transaction) (zc₁ zc₂ : ZScoreConfig)
    (wc₁ wc₂ : WeekendThresholdConfig) (hb : b₁ = b₂) (hz : zc₁ = zc₂) (hw : wc₁ = wc₂) :
    zscoreDetect b₁ zc₁ = zscoreDetect b₂ zc₂ ∧
    weekendThresholdDetect b₁ wc₁ = weekendThresholdDetect b₂ wc₂ := by
  subst hb; subst hz; subst hw
  exact ⟨rfl, rfl⟩

/-- Witness for C3 at a concrete batch and configurations. -/
theorem detect_deterministic_witness :
    zscoreDetect exBatch4 exZCfg = zscoreDetect exBatch4 exZCfg ∧
    weekendThresholdDetect exBatch4 exWeekendCfg = weekendThresholdDetect exBatch4 exWeekendCfg :=
  detect_deterministic exBatch4 exBatch4 exZCfg exZCfg exWeekendCfg exWeekendCfg rfl rfl rfl

/-! Claim C4. -/

/-- Claim C4: when the grouped amounts of a transaction have zero variance,
the z-score algorithm scores that transaction 0 (the guarded degenerate
branch; the detect function is total, so no error is ever raised). -/
theorem zscore_zero_variance_scores_zero (cfg : ZScoreConfig) (batch : List Transaction)
    (t : Transaction) (h : variance (groupAmounts batch t) = 0) :
    zscoreScoreTx cfg batch t = 0 := by
  simp [zscoreScoreTx, h]

/-- Witness for C4: on the single-group batch of amounts 10, 10, 10, 10 the
variance is 0 and every transaction scores 0. -/
theorem zscore_zero_variance_witness :
    variance (groupAmounts exBatch4 exT1) = 0 ∧
    zscoreScoreTx exZCfg exBatch4 exT1 = 0 ∧
    zscoreDetect exBatch4 exZCfg = [(1, 0), (2, 0), (3, 0), (4, 0)] := by
  have h : variance (groupAmounts exBatch4 exT1) = 0 := by
    norm_num [variance, groupAmounts, mean, exBatch4, exT1]
  refine ⟨h, zscore_zero_variance_scores_zero exZCfg exBatch4 exT1 h, ?_⟩
  norm_num [zscoreDetect, zscoreScoreTx, variance, groupAmounts, mean, exBatch4, exZCfg]

/-! Claim C5. -/

/-- Claim C5: the weekend-threshold rule triggers exactly when the weekday
is in the configured set and the amount exceeds the threshold; the detect
output carries one flag and derived score per transaction, 1 when triggered
and 0 otherwise. -/
theorem weekend_threshold_rule (cfg : WeekendThresholdConfig) (t : Transaction) :
    (weekendThresholdTriggered cfg t = true ↔
      t.weekday ∈ cfg.weekdays ∧ cfg.amountThreshold < t.amount) ∧
    (∀ batch : List Transaction, t ∈ batch →
      (RuleFlag.mk t.txId (weekendThresholdTriggered cfg t), weekendThresholdScore cfg t)
        ∈ weekendThresholdDetect batch cfg) ∧
    (weekendThresholdTriggered cfg t = true → weekendThresholdScore cfg t = 1) ∧
    (weekendThresholdTriggered cfg t = false → weekendThresholdScore cfg t = 0) := by
  refine ⟨?_, ?_, ?_, ?_⟩
  · simp [weekendThresholdTriggered]
  · intro batch hb
    exact List.mem_map_of_mem _ hb
  · intro h; simp [weekendThresholdScore, h]
  · intro h; simp [weekendThresholdScore, h]

/-- Witness for C5: with weekdays Saturday and Sunday and threshold 1000, a
Saturday transaction of amount 1500 triggers with score 1, a Saturday
transaction of amount 500 does not, a Tuesday transaction of amount 5000
does not. -/
theorem weekend_threshold_rule_witness :
    weekendThresholdTriggered exWeekendCfg exSat1500 = true ∧
    weekendThresholdScore exWeekendCfg exSat1500 = 1 ∧
    weekendThresholdTriggered exWeekendCfg exSat500 = false ∧
    weekendThresholdScore exWeekendCfg exSat500 = 0 ∧
    weekendThresholdTriggered exWeekendCfg exTue5000 = false ∧
    weekendThresholdScore exWeekendCfg exTue5000 = 0 := by
  have h1 : weekendThresholdTriggered exWeekendCfg exSat1500 = true := by
    norm_num [weekendThresholdTriggered, exWeekendCfg, exSat1500]
  have h2 : weekendThresholdTriggered exWeekendCfg exSat500 = false := by
    norm_num [weekendThresholdTriggered, exWeekendCfg, exSat500]
  have h3 : weekendThresholdTriggered exWeekendCfg exTue5000 = false := by
    norm_num [weekendThresholdTriggered, exWeekendCfg, exTue5000]
    decide
  exact ⟨h1, (weekend_threshold_rule exWeekendCfg exSat1500).2.2.1 h1,
    h2, (weekend_threshold_rule exWeekendCfg exSat500).2.2.2 h2,
    h3, (weekend_threshold_rule exWeekendCfg exTue5000).2.2.2 h3⟩

/-! Claim C6. -/

/-- Claim C6: a strategy with an unregistered algorithm identifier fails
validation with an UnknownAlgorithmError naming the identifier, aggregated
into the issue list createRun reports synchronously before any run exists,
and no run bound to that strategy ever reaches the running state. -/
theorem unknown_algorithm_never_running (strat : Strategy) (entry : AlgoConfigEntry)
    (hmem : entry ∈ strat.algorithms)
    (hunk : registeredAlgorithms.contains entry.algId = false) :
    ValidationIssue.unknownAlgorithm entry.algId ∈ validateStrategy strat ∧
    validateStrategy strat ≠ [] ∧
    (∃ issues, createRun strat = Except.error issues ∧
      ValidationIssue.unknownAlgorithm entry.algId ∈ issues) ∧
    ∀ events : List OrchEvent, (orchRun strat events).runState ≠ RunState.running := by
  have hin : ValidationIssue.unknownAlgorithm entry.algId ∈ validateStrategy strat := by
    apply mem_validateStrategy_of_entryIssue
    apply mem_entryIssues_of_mem hmem
    rw [validateEntry_unregistered entry hunk]
    exact List.mem_singleton.mpr rfl
  have hne : validateStrategy strat ≠ [] := List.ne_nil_of_mem hin
  refine ⟨hin, hne, ⟨validateStrategy strat, ?_, hin⟩, ?_⟩
  · simp [createRun, hne]
  · intro events
    rcases orchRun_invalid_not_running hne events with h | h <;> rw [h] <;> simp

/-- Witness for C6 at the concrete strategy naming an unregistered
identifier. -/
theorem unknown_algorithm_never_running_witness :
    ValidationIssue.unknownAlgorithm "isolation_forest" ∈ validateStrategy exBadStrat ∧
    validateStrategy exBadStrat ≠ [] ∧
    (∃ issues, createRun exBadStrat = Except.error issues ∧
      ValidationIssue.unknownAlgorithm "isolation_forest" ∈ issues) ∧
    (orchRun exBadStrat [OrchEvent.start, OrchEvent.scoreTx exRow]).runState
      ≠ RunState.running := by
  have h := unknown_algorithm_never_running exBadStrat
    ⟨"isolation_forest", AlgoParams.zscoreParams 2 3, 1, 1/2⟩
    (by simp [exBadStrat]) (by decide)
  exact ⟨h.1, h.2.1, h.2.2.1, h.2.2.2 [OrchEvent.start, OrchEvent.scoreTx exRow]⟩

/-! Claim C7. -/

/-- Claim C7: the three terminal states are immutable under every event of
the orchestrator, and neither starting nor scoring work proceeds from any
state other than pending and running. -/
theorem terminal_states_immutable (strat : Strategy) (s : OrchState) :
    (s.runState.isTerminal = true → ∀ e : OrchEvent, orchStep strat s e = s) ∧
    (s.runState ≠ RunState.pending → s.runState ≠ RunState.running →
      orchStep strat s OrchEvent.start = s ∧
      ∀ row : ScoreRow, orchStep strat s (OrchEvent.scoreTx row) = s) := by
  obtain ⟨rs, c, p⟩ := s
  constructor
  · intro hterm e
    cases rs <;> simp [RunState.isTerminal] at hterm <;> cases e <;> rfl
  · intro hp hr
    cases rs <;> simp only at hp hr
    · exact absurd rfl hp
    · exact absurd rfl hr
    · exact ⟨rfl, fun row => rfl⟩
    · exact ⟨rfl, fun row => rfl⟩
    · exact ⟨rfl, fun row => rfl⟩
    · exact ⟨rfl, fun row => rfl⟩

/-- Witness for C7: a completed run ignores a cancel request and a cancelled
run ignores a start. -/
theorem terminal_states_immutable_witness :
    orchStep exBadStrat ⟨RunState.completed, [], [exRow]⟩ OrchEvent.cancelRequest
      = ⟨RunState.completed, [], [exRow]⟩ ∧
    orchStep exBadStrat ⟨RunState.cancelled, [], []⟩ OrchEvent.start
      = ⟨RunState.cancelled, [], []⟩ := by
  constructor
  · exact (terminal_states_immutable exBadStrat ⟨RunState.completed, [], [exRow]⟩).1
      (by decide) OrchEvent.cancelRequest
  · exact ((terminal_states_immutable exBadStrat ⟨RunState.cancelled, [], []⟩).2
      (by decide) (by decide)).1

/-! Claim C8. -/

/-- Claim C8: every event sequence that leaves a run cancelled leaves zero
persisted anomaly-score rows for that run: partial results are discarded,
never written to storage. -/
theorem cancelled_run_persists_nothing (strat : Strategy) (events : List OrchEvent)
    (hc : (orchRun strat events).runState = RunState.cancelled) :
    (orchRun strat events).persisted = [] := by
  rcases orchRun_persisted_inv strat events with h | h
  · exact h
  · rw [hc] at h; cases h

/-- Witness for C8: a run started, partially scored, then cancelled ends
cancelled with an empty persisted score set. -/
theorem cancelled_run_persists_nothing_witness :
    (orchRun exStratWA
      [OrchEvent.start, OrchEvent.scoreTx exRow, OrchEvent.cancelRequest,
       OrchEvent.cleanupDone]).runState = RunState.cancelled ∧
    (orchRun exStratWA
      [OrchEvent.start, OrchEvent.scoreTx exRow, OrchEvent.cancelRequest,
       OrchEvent.cleanupDone]).persisted = [] := by
  have hval : validateStrategy exStratWA = [] := by
    norm_num [validateStrategy, exStratWA, entryIssues, validateEntry, registeredAlgorithms]
  have hc : (orchRun exStratWA
      [OrchEvent.start, OrchEvent.scoreTx exRow, OrchEvent.cancelRequest,
       OrchEvent.cleanupDone]).runState = RunState.cancelled := by
    simp [orchRun, orchStep, initOrchState, hval]
  exact ⟨hc, cancelled_run_persists_nothing exStratWA _ hc⟩

end Anomalidetektion

namespace Anomalidetektion.Frontend

/-! Claim C9. -/

/-- Claim C9: the drop zone accepts a file exactly when its MIME type is one
of the four configured types and its size is at most 100 times 1024 times
1024 bytes, and a rejected file is never added to the uploaded-files list by
onDrop. -/
theorem dropzone_accepts_only_valid (f : FileInfo) (prev : List UploadedFile)
    (dropped : List (FileInfo × String)) :
    (dropzoneAccepts f = true ↔ f.mime ∈ acceptedMimeTypes ∧ f.size ≤ maxFileSize) ∧
    (dropzoneAccepts f = false → f ∉ prev.map UploadedFile.file →
      f ∉ (onDrop prev dropped).map UploadedFile.file) := by
  constructor
  · simp [dropzoneAccepts]
  · intro hrej hprev hmem
    rw [onDrop, List.map_append, List.mem_append] at hmem
    rcases hmem with hmem | hmem
    · exact hprev hmem
    · rw [List.map_map, List.mem_map] at hmem
      obtain ⟨p, hp, hfp⟩ := hmem
      have hacc : dropzoneAccepts p.1 = true := (List.mem_filter.mp hp).2
      have hpf : p.1 = f := hfp
      rw [hpf] at hacc
      rw [hacc] at hrej
      cases hrej

/-- Witness for C9: a plain-text file is rejected and stays out of the
uploaded-files list. -/
theorem dropzone_accepts_only_valid_witness :
    dropzoneAccepts exBadFile = false ∧
    exBadFile ∉ (onDrop [] [(exBadFile, "id9")]).map UploadedFile.file := by
  have hrej : dropzoneAccepts exBadFile = false := by decide
  exact ⟨hrej, (dropzone_accepts_only_valid exBadFile [] [(exBadFile, "id9")]).2 hrej
    (by simp)⟩

/-! Claim C10. -/

/-- Claim C10: one tick of simulateUpload keeps the length and order of the
uploaded-files list, leaves every entry with a different identifier
unchanged, advances a matching entry below progress 100 by exactly 10, flips
a matching entry at progress at least 100 to success with progress exactly
100, never decreases progress of entries within the reachable bound 100, and
preserves that success entries carry progress 100. -/
theorem simulateUpload_tick_frame (fid : String) (files : List UploadedFile) :
    (simulateUploadTick fid files).length = files.length ∧
    (∀ i : Nat, (simulateUploadTick fid files)[i]? = (files[i]?).map (tickFile fid)) ∧
    (∀ f : UploadedFile, f.id ≠ fid → tickFile fid f = f) ∧
    (∀ f : UploadedFile, f.id = fid → f.progress < 100 →
      tickFile fid f = { f with progress := f.progress + 10 }) ∧
    (∀ f : UploadedFile, f.id = fid → 100 ≤ f.progress →
      tickFile fid f = { f with status := UploadStatus.success, progress := 100 }) ∧
    (∀ f : UploadedFile, f.progress ≤ 100 → f.progress ≤ (tickFile fid f).progress) ∧
    (∀ f : UploadedFile, f.status = UploadStatus.success → f.progress = 100 →
      (tickFile fid f).status = UploadStatus.success ∧ (tickFile fid f).progress = 100) := by
  refine ⟨by simp [simulateUploadTick], ?_, ?_, ?_, ?_, ?_, ?_⟩
  · intro i
    simp [simulateUploadTick, List.getElem?_map]
  · intro f h
    simp [tickFile, h]
  · intro f hid hlt
    rw [tickFile, if_pos hid, if_neg (by omega)]
  · intro f hid hge
    rw [tickFile, if_pos hid, if_pos hge]
  · intro f hle
    by_cases hid : f.id = fid
    · by_cases hge : 100 ≤ f.progress
      · rw [tickFile, if_pos hid, if_pos hge]; simpa using hle
      · rw [tickFile, if_pos hid, if_neg hge]; simp
    · rw [tickFile, if_neg hid]
  · intro f hsucc h100
    by_cases hid : f.id = fid
    · rw [tickFile, if_pos hid, if_pos (by omega)]
      exact ⟨rfl, rfl⟩
    · rw [tickFile, if_neg hid]
      exact ⟨hsucc, h100⟩

/-- Witness for C10: a matching entry at progress 50 advances to 60, a
matching entry at progress 100 flips to success, a non-matching entry is
unchanged, and the list keeps its length. -/
theorem simulateUpload_tick_frame_witness :
    tickFile "id1" exUp50 = { exUp50 with progress := 60 } ∧
    tickFile "id2" exUp100 = { exUp100 with status := UploadStatus.success, progress := 100 } ∧
    tickFile "id1" exUp100 = exUp100 ∧
    (simulateUploadTick "id1" [exUp50, exUp100]).length = 2 := by
  refine ⟨?_, ?_, ?_, ?_⟩
  · have h := (simulateUpload_tick_frame "id1" [exUp50, exUp100]).2.2.2.1 exUp50
      (by decide) (by decide)
    simpa [exUp50] using h
  · have h := (simulateUpload_tick_frame "id2" [exUp100]).2.2.2.2.1 exUp100
      (by decide) (by decide)
    simpa [exUp100] using h
  · exact (simulateUpload_tick_frame "id1" [exUp50, exUp100]).2.2.1 exUp100 (by decide)
  · exact (simulateUpload_tick_frame "id1" [exUp50, exUp100]).1

end Anomalidetektion.Frontend
